import Mathlib

/-
Verification of the stock-analysis prompt-execution pipeline.

Shallow embedding of the repository's core (src/app.py, src/models/ai_client.py,
src/models/prompt_loader.py).  Python/JSON values are modelled by the inductive
type `JVal`; Python floats are modelled as rationals; Python exceptions are
modelled by `Except String`; the random source and the model backend are
explicit inputs; the SQLite run store is modelled by a trace of writes.
-/

namespace StockAI

/-- JSON-like values, also used to model the Python values the pipeline
manipulates (`json.loads` results, prompt-definition mappings, stub dicts). -/
inductive JVal where
  | jnull : JVal
  | jbool : Bool → JVal
  | jint : Int → JVal
  | jnum : ℚ → JVal
  | jstr : String → JVal
  | jarr : List JVal → JVal
  | jobj : List (String × JVal) → JVal

/-- Left brace character (written via its code point). -/
def lbraceC : Char := Char.ofNat 123

/-- Right brace character (written via its code point). -/
def rbraceC : Char := Char.ofNat 125

/-- Left brace as a one-character string. -/
def lbraceS : String := String.singleton lbraceC

/-- Right brace as a one-character string. -/
def rbraceS : String := String.singleton rbraceC

/-- Single-quote character as a one-character string. -/
def squote : String := String.singleton (Char.ofNat 39)

/-- Python truthiness of a `JVal` (`if not parsed:` etc.). -/
def pyTruthy : JVal → Bool
  | .jnull => false
  | .jbool b => b
  | .jint n => decide (n ≠ 0)
  | .jnum q => decide (q ≠ 0)
  | .jstr s => decide (s ≠ "")
  | .jarr xs => !xs.isEmpty
  | .jobj fs => !fs.isEmpty

/-- Python truthiness of an optional string (`if raw_text:`): `None` and the
empty string are falsy. -/
def optStrTruthy : Option String → Bool
  | none => false
  | some t => decide (t ≠ "")

/-- Update key `k` of a Python dict modelled as an association list: an existing
key keeps its position and gets the new value, a new key is appended
(insertion-order semantics of Python dicts). -/
def dictSet (fs : List (String × JVal)) (k : String) (v : JVal) : List (String × JVal) :=
  if fs.any (fun p => p.1 == k) then
    fs.map (fun p => if p.1 == k then (k, v) else p)
  else fs ++ [(k, v)]

/-- Resolve duplicate keys of a parsed object left to right, the later value
overwriting the earlier, as Python's `json.loads` builds its dict. -/
def dedupObjFields (fs : List (String × JVal)) : List (String × JVal) :=
  fs.foldl (fun acc p => dictSet acc p.1 p.2) []

/-- Truncation of a rational toward zero, modelling Python `int(float)`. -/
def ratTrunc (q : ℚ) : Int :=
  if 0 ≤ q then ⌊q⌋ else -⌊-q⌋

/-- Whitespace test for the JSON reader. -/
def isWsChar (c : Char) : Bool :=
  c == ' ' || c == '\t' || c == '\n' || c == '\r'

/-- Skip leading whitespace. -/
def skipWs (cs : List Char) : List Char := cs.dropWhile isWsChar

/-- Numeric value of a list of decimal digit characters. -/
def digitsToNat (ds : List Char) : Nat :=
  ds.foldl (fun n c => 10 * n + (c.toNat - 48)) 0

/-- Body of a double-quoted JSON string (the opening quote already consumed),
supporting the simple escapes; returns the decoded string and the rest. -/
def parseStringBody : Nat → List Char → Option (String × List Char)
  | 0, _ => none
  | _, [] => none
  | fuel + 1, c :: rest =>
    if c == '"' then some ("", rest)
    else if c == '\\' then
      match rest with
      | [] => none
      | e :: rest2 =>
        let dec : Option Char :=
          if e == '"' then some '"'
          else if e == '\\' then some '\\'
          else if e == '/' then some '/'
          else if e == 'n' then some '\n'
          else if e == 't' then some '\t'
          else if e == 'r' then some '\r'
          else none
        match dec with
        | none => none
        | some d =>
          (parseStringBody fuel rest2).map (fun p => (String.singleton d ++ p.1, p.2))
    else
      (parseStringBody fuel rest).map (fun p => (String.singleton c ++ p.1, p.2))

/-- Decompose a JSON number at the head of the input: sign, integer digits,
optional fraction digits, optional exponent.  Returns
`(isFloat, value, rest)`. -/
def parseNumberCore (cs : List Char) : Option (Bool × ℚ × List Char) :=
  let (neg, cs1) :=
    match cs with
    | '-' :: rest => (true, rest)
    | _ => (false, cs)
  let intDigits := cs1.takeWhile Char.isDigit
  let cs2 := cs1.dropWhile Char.isDigit
  if intDigits.isEmpty then none
  else if intDigits.length > 1 && intDigits.headD '0' == '0' then none
  else
    let ipart : ℚ := (digitsToNat intDigits : ℚ)
    let fracStep : Option (Bool × ℚ × List Char) :=
      match cs2 with
      | '.' :: csf =>
        let fracDigits := csf.takeWhile Char.isDigit
        if fracDigits.isEmpty then none
        else some (true, ipart + (digitsToNat fracDigits : ℚ) / (10 : ℚ) ^ fracDigits.length,
          csf.dropWhile Char.isDigit)
      | _ => some (false, ipart, cs2)
    match fracStep with
    | none => none
    | some (isFloat, base, cs3) =>
      let expStep : Option (Bool × ℚ × List Char) :=
        match cs3 with
        | 'e' :: csE => some (true, base, csE)
        | 'E' :: csE => some (true, base, csE)
        | _ => some (false, base, cs3)
      match expStep with
      | none => none
      | some (hasExp, b2, cs4) =>
        if hasExp then
          let (eneg, cs5) :=
            match cs4 with
            | '-' :: r => (true, r)
            | '+' :: r => (false, r)
            | _ => (false, cs4)
          let expDigits := cs5.takeWhile Char.isDigit
          if expDigits.isEmpty then none
          else
            let e := digitsToNat expDigits
            let v : ℚ := if eneg then b2 / (10 : ℚ) ^ e else b2 * (10 : ℚ) ^ e
            some (true, (if neg then -v else v), cs5.dropWhile Char.isDigit)
        else some (isFloat, (if neg then -b2 else b2), cs4)

/-- A JSON number as a `JVal`: `jint` for plain integers, `jnum` otherwise,
as Python's json module yields `int` or `float`. -/
def parseNumber (cs : List Char) : Option (JVal × List Char) :=
  match parseNumberCore cs with
  | none => none
  | some (isFloat, v, rest) =>
    if isFloat then some (.jnum v, rest)
    else some (.jint (ratTrunc v), rest)

mutual

/-- One JSON value, returning the value and the unconsumed input.  Models the
external `json.loads` grammar on the subset this program exchanges (no
`NaN`/`Infinity`, no `\u` escapes). -/
def parseVal : Nat → List Char → Option (JVal × List Char)
  | 0, _ => none
  | fuel + 1, cs =>
    match skipWs cs with
    | [] => none
    | c :: rest =>
      if c == 'n' then
        match rest with
        | 'u' :: 'l' :: 'l' :: r => some (.jnull, r)
        | _ => none
      else if c == 't' then
        match rest with
        | 'r' :: 'u' :: 'e' :: r => some (.jbool true, r)
        | _ => none
      else if c == 'f' then
        match rest with
        | 'a' :: 'l' :: 's' :: 'e' :: r => some (.jbool false, r)
        | _ => none
      else if c == '"' then
        (parseStringBody (fuel + 1) rest).map (fun p => (.jstr p.1, p.2))
      else if c == '[' then
        match skipWs rest with
        | ']' :: r => some (.jarr [], r)
        | cs1 => (parseArrItems fuel cs1).map (fun p => (.jarr p.1, p.2))
      else if c == lbraceC then
        match skipWs rest with
        | d :: r =>
          if d == rbraceC then some (.jobj [], r)
          else (parseObjItems fuel (d :: r)).map (fun p => (.jobj (dedupObjFields p.1), p.2))
        | [] => none
      else parseNumber (c :: rest)

/-- Comma-separated array items up to the closing bracket. -/
def parseArrItems : Nat → List Char → Option (List JVal × List Char)
  | 0, _ => none
  | fuel + 1, cs =>
    match parseVal fuel cs with
    | none => none
    | some (v, r) =>
      match skipWs r with
      | ',' :: r2 => (parseArrItems fuel r2).map (fun p => (v :: p.1, p.2))
      | ']' :: r2 => some ([v], r2)
      | _ => none

/-- Comma-separated `"key": value` members up to the closing brace. -/
def parseObjItems : Nat → List Char → Option (List (String × JVal) × List Char)
  | 0, _ => none
  | fuel + 1, cs =>
    match skipWs cs with
    | '"' :: r =>
      match parseStringBody (fuel + 1) r with
      | none => none
      | some (k, r1) =>
        match skipWs r1 with
        | ':' :: r2 =>
          match parseVal fuel r2 with
          | none => none
          | some (v, r3) =>
            match skipWs r3 with
            | ',' :: r4 => (parseObjItems fuel r4).map (fun p => ((k, v) :: p.1, p.2))
            | d :: r4 => if d == rbraceC then some ([(k, v)], r4) else none
            | [] => none
        | _ => none
    | _ => none

end

/-- Model of the external `json.loads`: parse one JSON value and require only
trailing whitespace after it; `none` models `json.JSONDecodeError`. -/
def jsonLoads (s : String) : Option JVal :=
  match parseVal (2 * s.length + 2) s.toList with
  | some (v, rest) => if (skipWs rest).isEmpty then some v else none
  | none => none

/-- Escape a string for JSON output, as `json.dumps` does for the characters
this program produces. -/
def escapeJson (s : String) : String :=
  s.toList.foldl
    (fun acc c =>
      if c == '"' then acc ++ "\\\""
      else if c == '\\' then acc ++ "\\\\"
      else if c == '\n' then acc ++ "\\n"
      else if c == '\t' then acc ++ "\\t"
      else if c == '\r' then acc ++ "\\r"
      else acc ++ String.singleton c) ""

/-- Decimal rendering of a rational whose denominator divides 100, modelling
Python's float repr for the two-decimal values this program produces
(`85.0`, `42.5`, `42.25`). -/
def ratToDecimal (q : ℚ) : String :=
  let sign := if q < 0 then "-" else ""
  let a : ℚ := |q|
  let n : Int := ⌊a * 100⌋
  let ip := n / 100
  let fr := n % 100
  if fr = 0 then sign ++ toString ip ++ ".0"
  else if fr % 10 = 0 then sign ++ toString ip ++ "." ++ toString (fr / 10)
  else if fr < 10 then sign ++ toString ip ++ ".0" ++ toString fr
  else sign ++ toString ip ++ "." ++ toString fr

mutual

/-- Model of the external `json.dumps` with its default separators. -/
def jsonDumps : JVal → String
  | .jnull => "null"
  | .jbool true => "true"
  | .jbool false => "false"
  | .jint n => toString n
  | .jnum q => ratToDecimal q
  | .jstr s => "\"" ++ escapeJson s ++ "\""
  | .jarr xs => "[" ++ String.intercalate ", " (dumpsList xs) ++ "]"
  | .jobj fs => lbraceS ++ String.intercalate ", " (dumpsFields fs) ++ rbraceS

/-- Serialized forms of the elements of an array. -/
def dumpsList : List JVal → List String
  | [] => []
  | v :: vs => jsonDumps v :: dumpsList vs

/-- Serialized forms of the members of an object. -/
def dumpsFields : List (String × JVal) → List String
  | [] => []
  | (k, v) :: fs => ("\"" ++ escapeJson k ++ "\": " ++ jsonDumps v) :: dumpsFields fs

end

mutual

/-- Model of Python `str()` on the values the pipeline handles. -/
def pyStr : JVal → String
  | .jstr s => s
  | .jnull => "None"
  | .jbool true => "True"
  | .jbool false => "False"
  | .jint n => toString n
  | .jnum q => ratToDecimal q
  | .jarr xs => "[" ++ String.intercalate ", " (pyReprList xs) ++ "]"
  | .jobj fs => lbraceS ++ String.intercalate ", " (pyReprFields fs) ++ rbraceS

/-- Model of Python `repr()` (inner values of containers). -/
def pyRepr : JVal → String
  | .jstr s => squote ++ s ++ squote
  | .jnull => "None"
  | .jbool true => "True"
  | .jbool false => "False"
  | .jint n => toString n
  | .jnum q => ratToDecimal q
  | .jarr xs => "[" ++ String.intercalate ", " (pyReprList xs) ++ "]"
  | .jobj fs => lbraceS ++ String.intercalate ", " (pyReprFields fs) ++ rbraceS

/-- Reprs of the elements of a list. -/
def pyReprList : List JVal → List String
  | [] => []
  | v :: vs => pyRepr v :: pyReprList vs

/-- Reprs of the members of a dict. -/
def pyReprFields : List (String × JVal) → List String
  | [] => []
  | (k, v) :: fs => (squote ++ k ++ squote ++ ": " ++ pyRepr v) :: pyReprFields fs

end

/-- Model of Python `int(x)`: identity on ints, `True/False` to `1/0`,
truncation on floats, strict decimal parse on strings, `TypeError`/`ValueError`
otherwise (src/app.py line `score = int(parsed_data.get("score", 0))`). -/
def pyIntOfString (s : String) : Option Int :=
  let cs := (s.toList.dropWhile isWsChar).reverse.dropWhile isWsChar |>.reverse
  match cs with
  | [] => none
  | c :: rest =>
    let (neg, ds) :=
      if c == '-' then (true, rest)
      else if c == '+' then (false, rest)
      else (false, c :: rest)
    if ds.isEmpty then none
    else if ds.all Char.isDigit then
      some (if neg then -(digitsToNat ds : Int) else (digitsToNat ds : Int))
    else none

/-- Python `int()` applied to a parsed value. -/
def pyInt : JVal → Except String Int
  | .jint n => .ok n
  | .jbool b => .ok (if b then 1 else 0)
  | .jnum q => .ok (ratTrunc q)
  | .jstr s =>
    match pyIntOfString s with
    | some n => .ok n
    | none => .error ("ValueError: invalid literal for int with base 10: " ++ s)
  | _ => .error "TypeError: int argument must be a string, a bytes-like object or a real number"

/-- Model of Python `float(str)`: stripped decimal literal with optional
fraction and exponent. -/
def pyFloatOfString (s : String) : Option ℚ :=
  let cs := (s.toList.dropWhile isWsChar).reverse.dropWhile isWsChar |>.reverse
  let (neg, cs1) :=
    match cs with
    | '-' :: r => (true, r)
    | '+' :: r => (false, r)
    | _ => (false, cs)
  let intDigits := cs1.takeWhile Char.isDigit
  let cs2 := cs1.dropWhile Char.isDigit
  let fracStep : Option (ℚ × List Char) :=
    match cs2 with
    | '.' :: csf =>
      let fracDigits := csf.takeWhile Char.isDigit
      if intDigits.isEmpty && fracDigits.isEmpty then none
      else some ((digitsToNat intDigits : ℚ) + (digitsToNat fracDigits : ℚ) / (10 : ℚ) ^ fracDigits.length,
        csf.dropWhile Char.isDigit)
    | _ =>
      if intDigits.isEmpty then none
      else some ((digitsToNat intDigits : ℚ), cs2)
  match fracStep with
  | none => none
  | some (base, cs3) =>
    match cs3 with
    | [] => some (if neg then -base else base)
    | c :: cs4 =>
      if c == 'e' || c == 'E' then
        let (eneg, cs5) :=
          match cs4 with
          | '-' :: r => (true, r)
          | '+' :: r => (false, r)
          | _ => (false, cs4)
        let expDigits := cs5.takeWhile Char.isDigit
        if expDigits.isEmpty || !(cs5.dropWhile Char.isDigit).isEmpty then none
        else
          let e := digitsToNat expDigits
          let v := if eneg then base / (10 : ℚ) ^ e else base * (10 : ℚ) ^ e
          some (if neg then -v else v)
      else none

/-- Python `float()` applied to a parsed value
(src/app.py line `target_price = float(parsed_data.get("target_buy_price", 0))`). -/
def pyFloat : JVal → Except String ℚ
  | .jint n => .ok (n : ℚ)
  | .jnum q => .ok q
  | .jbool b => .ok (if b then 1 else 0)
  | .jstr s =>
    match pyFloatOfString s with
    | some q => .ok q
    | none => .error ("ValueError: could not convert string to float: " ++ s)
  | _ => .error "TypeError: float argument must be a string or a real number"

/-- Model of Python `str.upper()` (ASCII case mapping). -/
def pyUpper (s : String) : String := ⟨s.data.map Char.toUpper⟩

/-- Python `parsed_data.get(key, default)`: dict lookup with default; any
non-dict value has no `.get` attribute, an `AttributeError`. -/
def pyGet (v : JVal) (k : String) (default : JVal) : Except String JVal :=
  match v with
  | .jobj fs => .ok ((fs.lookup k).getD default)
  | _ => .error ("AttributeError: object has no attribute get (key " ++ k ++ ")")

/-- Source of randomness for the stub generator: `random.randint` always
returns a value in its inclusive range, `random.uniform` a value in its
inclusive range; both facts are part of the model of Python's random module. -/
structure RandomSource where
  randint : Int → Int → Int
  uniform : ℚ → ℚ → ℚ
  randint_mem : ∀ a b, a ≤ b → a ≤ randint a b ∧ randint a b ≤ b
  uniform_mem : ∀ a b, a ≤ b → a ≤ uniform a b ∧ uniform a b ≤ b

/-- A concrete random source (always the low end of the range). -/
def constRandom : RandomSource where
  randint := fun a _ => a
  uniform := fun a _ => a
  randint_mem := fun _ _ h => ⟨le_refl _, h⟩
  uniform_mem := fun _ _ h => ⟨le_refl _, h⟩

/-- Python `round(x, 2)`: round to two decimal places. -/
def round2 (q : ℚ) : ℚ := ((round (q * 100) : ℤ) : ℚ) / 100

/-- The stub score: `random.randint(1, 100)` (src/models/ai_client.py). -/
def stubScore (rng : RandomSource) : Int := rng.randint 1 100

/-- The stub rating:
`"BUY" if score >= 70 else "HOLD" if score >= 40 else "SELL"`. -/
def stubRating (rng : RandomSource) : String :=
  if 70 ≤ stubScore rng then "BUY" else if 40 ≤ stubScore rng then "HOLD" else "SELL"

/-- The stub target price: `round(random.uniform(10.0, 200.0), 2)`. -/
def stubTarget (rng : RandomSource) : ℚ := round2 (rng.uniform 10 200)

/-- The fixed placeholder rationale of the stub. -/
def placeholderRationale : String :=
  "This is a placeholder response. Replace AIClient.generate with a real model call."

/-- The stub dict produced when no parsed data is available
(src/models/ai_client.py, `AIClient.generate`). -/
def stubObj (rng : RandomSource) : JVal :=
  .jobj [("score", .jint (stubScore rng)), ("rating", .jstr (stubRating rng)),
    ("target_buy_price", .jnum (stubTarget rng)), ("rationale", .jstr placeholderRationale)]

/-- The AI client's configuration state (src/models/ai_client.py,
`AIClient.__init__`): the `OPENAI_API_KEY` environment variable (absent, or a
string that may be empty) and whether the optional `openai` import succeeded. -/
structure AIClient where
  api_key : Option String
  openai_installed : Bool

/-- `self.llm_available = bool(self.api_key and openai is not None)`. -/
def AIClient.llm_available (c : AIClient) : Bool :=
  optStrTruthy c.api_key && c.openai_installed

/-- The raw text available after the backend step of `AIClient.generate`:
if the client has a backend, a successful call yields its text and any failure
is caught and becomes `None`; without a backend no call is made and the raw
text is `None`.  The backend response is an explicit input (`Except` models
the call either returning text or raising). -/
def rawTextOf (client : AIClient) (resp : Except String String) : Option String :=
  if client.llm_available then
    match resp with
    | .ok t => some t
    | .error _ => none
  else none

/-- The parse step of `AIClient.generate`: falsy raw text parses to the empty
dict, otherwise `json.loads` is attempted and a decode error is caught and
yields the empty dict. -/
def parseRaw : Option String → JVal
  | none => .jobj []
  | some t => if t = "" then .jobj [] else (jsonLoads t).getD (.jobj [])

/-- The parse-or-stub part of `AIClient.generate`: parse the raw text; if the
parsed value is falsy, substitute the stub and record its serialized form as
the raw text.  (Schema validation only prints a warning and never alters the
result, so it has no effect in the model.) -/
def resolveParsed (raw : Option String) (rng : RandomSource) : JVal × Option String :=
  let parsed := parseRaw raw
  if pyTruthy parsed then (parsed, raw)
  else (stubObj rng, some (jsonDumps (stubObj rng)))

/-- `AIClient.generate`: backend step then parse-or-stub step.  The prompt's
template only feeds the rendered text sent to the backend (whose response is
already an input here) and its schema only triggers a printed warning, so the
prompt does not affect the returned pair. -/
def generate (client : AIClient) (resp : Except String String) (rng : RandomSource) :
    JVal × Option String :=
  resolveParsed (rawTextOf client resp) rng

/-- The coerced per-prompt fields built in `run_analysis` (src/app.py):
`score`, `rating`, `target_buy_price` are coerced; `rationale` is taken as
parsed, with `""` as default. -/
structure Coerced where
  score : Int
  rating : String
  target_buy_price : ℚ
  rationale : JVal

/-- The four field extractions of `run_analysis`:
`int(parsed_data.get("score", 0))`, `str(parsed_data.get("rating", "")).upper()`,
`float(parsed_data.get("target_buy_price", 0))`,
`parsed_data.get("rationale", "")`.  Each `int`/`float`/`.get` step can raise. -/
def coerceFields (parsed : JVal) : Except String Coerced := do
  let sv ← pyGet parsed "score" (.jint 0)
  let score ← pyInt sv
  let rv ← pyGet parsed "rating" (.jstr "")
  let rating := pyUpper (pyStr rv)
  let tv ← pyGet parsed "target_buy_price" (.jint 0)
  let target ← pyFloat tv
  let rationale ← pyGet parsed "rationale" (.jstr "")
  return ⟨score, rating, target, rationale⟩

/-- The whole raw-text-to-outcome path for one prompt: parse-or-stub, then the
field coercions, returning the coerced fields and the recorded raw text. -/
def resolveOutcome (raw : Option String) (rng : RandomSource) :
    Except String (Coerced × Option String) :=
  let pr := resolveParsed raw rng
  (coerceFields pr.1).map (fun c => (c, pr.2))

/-- The coerced fields of the stub outcome. -/
def stubCoerced (rng : RandomSource) : Coerced :=
  ⟨stubScore rng, pyUpper (stubRating rng), stubTarget rng, .jstr placeholderRationale⟩

/-- A loaded prompt definition (src/models/prompt_loader.py, `Prompt`).
`schema` is `jnull` when absent, mirroring `data.get("schema")`. -/
structure Prompt where
  prompt_id : String
  name : String
  version : Int
  template : String
  schema : JVal

/-- `Prompt.from_dict`: check the required keys in order, then build the
prompt with `str()`/`int()` coercions; `int(version)` can raise. -/
def Prompt.from_dict (fs : List (String × JVal)) : Except String Prompt :=
  if (fs.lookup "prompt_id").isNone then
    .error "Missing required key prompt_id in prompt definition"
  else if (fs.lookup "name").isNone then
    .error "Missing required key name in prompt definition"
  else if (fs.lookup "version").isNone then
    .error "Missing required key version in prompt definition"
  else if (fs.lookup "template").isNone then
    .error "Missing required key template in prompt definition"
  else
    match pyInt ((fs.lookup "version").getD .jnull) with
    | .error e => .error e
    | .ok v =>
      .ok ⟨pyStr ((fs.lookup "prompt_id").getD .jnull), pyStr ((fs.lookup "name").getD .jnull),
        v, pyStr ((fs.lookup "template").getD .jnull), (fs.lookup "schema").getD .jnull⟩

/-- The prompts directory as seen by `load_prompts`: the candidate files in
processing order (sorted `*.yml` then sorted `*.yaml`), each with the result of
`yaml.safe_load` on it (`Except` models a raised parse error), and the
readable contents of the other files, for `template_file` references. -/
structure PromptDir where
  files : List (String × Except String JVal)
  fileContents : List (String × String)

/-- The body of one iteration of the `load_prompts` loop: everything inside
the per-file `try`.  Any raised error is the `Except.error` case: a YAML parse
error, a non-mapping top level, a missing referenced template file, a
non-path `template_file` value, or a `Prompt.from_dict` failure. -/
def loadOne (d : PromptDir) (parsedFile : Except String JVal) : Except String Prompt :=
  match parsedFile with
  | .error e => .error e
  | .ok data =>
    match data with
    | .jobj fs =>
      let tfv := (fs.lookup "template_file").getD .jnull
      if pyTruthy tfv then
        match tfv with
        | .jstr f =>
          match d.fileContents.lookup f with
          | none => .error ("Template file " ++ f ++ " referenced does not exist")
          | some contents => Prompt.from_dict (dictSet fs "template" (.jstr contents))
        | _ => .error "TypeError: argument should be a str or an os.PathLike object"
      else Prompt.from_dict fs
    | _ => .error "YAML file must contain a mapping at top level"

/-- The `load_prompts` loop over the remaining files: a failing file is logged
and skipped, a successful one is appended. -/
def load_prompts_aux (d : PromptDir) : List (String × Except String JVal) → List Prompt
  | [] => []
  | f :: rest =>
    match loadOne d f.2 with
    | .ok p => p :: load_prompts_aux d rest
    | .error _ => load_prompts_aux d rest

/-- `load_prompts` (src/models/prompt_loader.py): fold `loadOne` over the
directory's candidate files, skipping the failures. -/
def load_prompts (d : PromptDir) : List Prompt := load_prompts_aux d d.files

/-- `load_context` (src/app.py): the context is just the ticker. -/
def load_context (ticker : String) : JVal := .jobj [("ticker", .jstr ticker)]

/-- One write against the run store (src/models/database.py interface used by
`run_analysis`); the opaque generated `run_id` is common to the whole trace and
left implicit. -/
inductive DBWrite where
  | start_run (ticker : String) (context_json : String)
  | save_prompt_result (prompt_id : String) (prompt_version : Int) (prompt_name : String)
      (score : Int) (rating : String) (target_buy_price : ℚ) (rationale : JVal)
      (raw_response : Option String)
  | finish_run (average_score : ℚ) (final_rating : String) (final_target_price : ℚ)

/-- The prompt id recorded by a write, when the write is a per-prompt insert. -/
def writePromptId : DBWrite → Option String
  | .save_prompt_result pid _ _ _ _ _ _ _ => some pid
  | _ => none

/-- One display entry of `run_analysis`'s `result_entries`. -/
structure OutcomeEntry where
  prompt_id : String
  prompt_name : String
  prompt_version : Int
  score : Int
  rating : String
  target_buy_price : ℚ
  rationale : JVal

/-- The run summary (src/app.py, `summary`). -/
structure RunSummary where
  average_score : ℚ
  final_rating : String
  final_target_price : ℚ

/-- Python division: raises `ZeroDivisionError` on a zero divisor. -/
def pyDiv (a b : ℚ) : Except String ℚ :=
  if b = 0 then .error "ZeroDivisionError: division by zero" else .ok (a / b)

/-- `average_score = sum(scores) / len(scores)` (src/app.py). -/
def average_score_of (scores : List Int) : Except String ℚ :=
  pyDiv ((scores.map (fun n => (n : ℚ))).sum) (scores.length : ℚ)

/-- `final_target_price = sum(targets) / len(targets)` (src/app.py). -/
def final_target_price_of (targets : List ℚ) : Except String ℚ :=
  pyDiv targets.sum (targets.length : ℚ)

/-- The elements of a list not yet seen, each kept at its first occurrence. -/
def firstOccurrencesAux (seen : List String) : List String → List String
  | [] => []
  | x :: xs =>
    if x ∈ seen then firstOccurrencesAux seen xs
    else x :: firstOccurrencesAux (x :: seen) xs

/-- The distinct elements of a list in order of first occurrence: the
iteration (insertion) order of `collections.Counter(ratings)`. -/
def firstOccurrences (l : List String) : List String := firstOccurrencesAux [] l

/-- The items of `Counter(ratings)` in insertion order, each with its count. -/
def tallies (ratings : List String) : List (String × Nat) :=
  (firstOccurrences ratings).map (fun r => (r, ratings.count r))

/-- Count-descending comparison on counter items. -/
def countGe (a b : String × Nat) : Prop := b.2 ≤ a.2

instance : DecidableRel countGe := fun a b => Nat.decLe b.2 a.2

instance : IsTotal (String × Nat) countGe := ⟨fun a b => le_total b.2 a.2⟩

instance : IsTrans (String × Nat) countGe := ⟨fun _ _ _ h1 h2 => le_trans h2 h1⟩

/-- `Counter(ratings).most_common()`: all (value, count) items, count
descending, insertion order among equal counts — a stable sort by descending
count, as Python's stable `sorted` used by `most_common`. -/
def most_common (ratings : List String) : List (String × Nat) :=
  (tallies ratings).insertionSort countGe

/-- The final-rating computation of `run_analysis` (src/app.py lines 102-112):
a single distinct rating wins; with several, a tie between the two top counts
gives `"HOLD"`, otherwise the top item wins.  `none` models the `IndexError`
of `most_common[0]` on an empty list. -/
def finalRating (ratings : List String) : Option String :=
  match most_common ratings with
  | [] => none
  | [p] => some p.1
  | p :: q :: _ => some (if p.2 = q.2 then "HOLD" else p.1)

/-- The per-prompt loop of `run_analysis`: for the `i`-th prompt, call the
client (the backend's behaviour per call and the random source per call are
explicit inputs), coerce the fields (which can raise, aborting the loop), and
record the `save_prompt_result` write.  Returns the writes made and either the
display entries or the first raised error. -/
def runLoop (client : AIClient) (backend : Nat → Except String String)
    (rng : Nat → RandomSource) : Nat → List Prompt → List DBWrite × Except String (List OutcomeEntry)
  | _, [] => ([], .ok [])
  | i, p :: rest =>
    let g := generate client (backend i) (rng i)
    match coerceFields g.1 with
    | .error e => ([], .error e)
    | .ok c =>
      let w := DBWrite.save_prompt_result p.prompt_id p.version p.name c.score c.rating
        c.target_buy_price c.rationale g.2
      let next := runLoop client backend rng (i + 1) rest
      (w :: next.1, next.2.map (fun es => ⟨p.prompt_id, p.name, p.version, c.score, c.rating,
        c.target_buy_price, c.rationale⟩ :: es))

/-- `run_analysis` (src/app.py): empty catalog raises before any write;
otherwise start the run, process each prompt in order, aggregate, finish the
run.  The first component is the trace of run-store writes, the second the
returned `(result_entries, summary)` or the raised error. -/
def run_analysis (prompts : List Prompt) (client : AIClient)
    (backend : Nat → Except String String) (rng : Nat → RandomSource) (ticker : String) :
    List DBWrite × Except String (List OutcomeEntry × RunSummary) :=
  if prompts.isEmpty then
    ([], .error "No prompt definitions found in the prompts directory.")
  else
    let context_json := jsonDumps (load_context ticker)
    let lp := runLoop client backend rng 0 prompts
    let pre := DBWrite.start_run ticker context_json :: lp.1
    match lp.2 with
    | .error e => (pre, .error e)
    | .ok entries =>
      match average_score_of (entries.map (fun e => e.score)) with
      | .error e => (pre, .error e)
      | .ok average_score =>
        match finalRating (entries.map (fun e => e.rating)) with
        | none => (pre, .error "IndexError: list index out of range")
        | some final_rating =>
          match final_target_price_of (entries.map (fun e => e.target_buy_price)) with
          | .error e => (pre, .error e)
          | .ok final_target_price =>
            (pre ++ [DBWrite.finish_run average_score final_rating final_target_price],
              .ok (entries, ⟨average_score, final_rating, final_target_price⟩))

/-! ### Properties of the counter and of `most_common` -/

theorem mem_firstOccurrencesAux (l : List String) :
    ∀ (seen : List String) (x : String), x ∈ firstOccurrencesAux seen l ↔ x ∈ l ∧ x ∉ seen := by
  induction l with
  | nil => intro seen x; simp [firstOccurrencesAux]
  | cons y ys ih =>
    intro seen x
    rw [firstOccurrencesAux]
    by_cases hy : y ∈ seen
    · rw [if_pos hy, ih]
      constructor
      · rintro ⟨hx, hs⟩
        exact ⟨List.mem_cons_of_mem _ hx, hs⟩
      · rintro ⟨hx, hs⟩
        rcases List.mem_cons.1 hx with rfl | hx
        · exact absurd hy hs
        · exact ⟨hx, hs⟩
    · rw [if_neg hy]
      constructor
      · intro hmem
        rcases List.mem_cons.1 hmem with rfl | h2
        · exact ⟨List.mem_cons_self _ _, hy⟩
        · obtain ⟨hx, hs⟩ := (ih (y :: seen) x).1 h2
          exact ⟨List.mem_cons_of_mem _ hx, fun hxs => hs (List.mem_cons_of_mem _ hxs)⟩
      · rintro ⟨hx, hs⟩
        rcases List.mem_cons.1 hx with rfl | h2
        · exact List.mem_cons_self _ _
        · by_cases hxy : x = y
          · exact hxy ▸ List.mem_cons_self _ _
          · refine List.mem_cons_of_mem _ ((ih (y :: seen) x).2 ⟨h2, ?_⟩)
            exact fun hm => (List.mem_cons.1 hm).elim hxy hs

theorem nodup_firstOccurrencesAux (l : List String) :
    ∀ seen, (firstOccurrencesAux seen l).Nodup := by
  induction l with
  | nil => intro seen; simp [firstOccurrencesAux]
  | cons y ys ih =>
    intro seen
    rw [firstOccurrencesAux]
    by_cases hy : y ∈ seen
    · rw [if_pos hy]; exact ih seen
    · rw [if_neg hy]
      refine List.nodup_cons.2 ⟨?_, ih _⟩
      intro hmem
      exact ((mem_firstOccurrencesAux ys (y :: seen) y).1 hmem).2 (List.mem_cons_self y seen)

theorem mem_firstOccurrences {l : List String} {x : String} :
    x ∈ firstOccurrences l ↔ x ∈ l := by
  simp [firstOccurrences, mem_firstOccurrencesAux]

theorem nodup_firstOccurrences (l : List String) : (firstOccurrences l).Nodup :=
  nodup_firstOccurrencesAux l []

theorem mem_tallies {ratings : List String} {p : String × Nat} :
    p ∈ tallies ratings ↔ p.1 ∈ ratings ∧ p.2 = ratings.count p.1 := by
  simp only [tallies, List.mem_map]
  constructor
  · rintro ⟨a, ha, rfl⟩
    exact ⟨mem_firstOccurrences.1 ha, rfl⟩
  · rintro ⟨h1, h2⟩
    refine ⟨p.1, mem_firstOccurrences.2 h1, ?_⟩
    cases p
    simp_all

theorem tallies_fst (ratings : List String) :
    (tallies ratings).map Prod.fst = firstOccurrences ratings := by
  rw [tallies, List.map_map]
  rw [show (Prod.fst ∘ fun r => (r, ratings.count r)) = id from rfl, List.map_id]

theorem most_common_perm (ratings : List String) :
    List.Perm (most_common ratings) (tallies ratings) :=
  (tallies ratings).perm_insertionSort countGe

theorem mem_most_common {ratings : List String} {p : String × Nat} :
    p ∈ most_common ratings ↔ p.1 ∈ ratings ∧ p.2 = ratings.count p.1 :=
  ((most_common_perm ratings).mem_iff).trans mem_tallies

theorem most_common_sorted (ratings : List String) :
    (most_common ratings).Sorted countGe :=
  List.sorted_insertionSort countGe (tallies ratings)

theorem most_common_fst_nodup (ratings : List String) :
    ((most_common ratings).map Prod.fst).Nodup := by
  have hperm := (most_common_perm ratings).map Prod.fst
  rw [hperm.nodup_iff, tallies_fst]
  exact nodup_firstOccurrences ratings

theorem most_common_ne_nil {ratings : List String} (hne : ratings ≠ []) :
    most_common ratings ≠ [] := by
  obtain ⟨x, hx⟩ := List.exists_mem_of_ne_nil ratings hne
  intro h
  have : (x, ratings.count x) ∈ most_common ratings := mem_most_common.2 ⟨hx, rfl⟩
  rw [h] at this
  exact absurd this (List.not_mem_nil _)

/-! ### Spec-side predicates for the final-rating claim -/

/-- `r` is the strictly most frequent value of `ratings`. -/
def strictlyMostFrequent (r : String) (ratings : List String) : Prop :=
  r ∈ ratings ∧ ∀ s ∈ ratings, s ≠ r → ratings.count s < ratings.count r

/-- Two or more distinct values attain the highest occurrence count of
`ratings` (the two highest counts of the descending ranking are equal). -/
def topTied (ratings : List String) : Prop :=
  ∃ r s, r ∈ ratings ∧ s ∈ ratings ∧ r ≠ s ∧ ratings.count r = ratings.count s ∧
    ∀ t ∈ ratings, ratings.count t ≤ ratings.count r

theorem finalRating_eq_of_singleton {ratings : List String} {p : String × Nat}
    (h : most_common ratings = [p]) : finalRating ratings = some p.1 := by
  rw [finalRating, h]

theorem finalRating_eq_of_cons {ratings : List String} {p q : String × Nat}
    {tl : List (String × Nat)} (h : most_common ratings = p :: q :: tl) :
    finalRating ratings = some (if p.2 = q.2 then "HOLD" else p.1) := by
  rw [finalRating, h]

/-- C1: for every non-empty sequence of ratings, the final rating is the
unique value if exactly one distinct rating appears, the literal `"HOLD"` if
the two highest occurrence counts are equal, and otherwise the strictly most
frequent value; and the three concrete examples of the spec hold. -/
theorem C1_final_rating (ratings : List String) (hne : ratings ≠ []) :
    (∀ r, (∀ x ∈ ratings, x = r) → finalRating ratings = some r) ∧
    (topTied ratings → finalRating ratings = some "HOLD") ∧
    (∀ r, strictlyMostFrequent r ratings → finalRating ratings = some r) ∧
    finalRating ["BUY", "BUY", "HOLD"] = some "BUY" ∧
    finalRating ["BUY", "BUY", "HOLD", "HOLD"] = some "HOLD" ∧
    finalRating ["SELL"] = some "SELL" := by
  refine ⟨?_, ?_, ?_, rfl, rfl, rfl⟩
  · -- exactly one distinct value
    intro r hall
    have hrne : r ∈ ratings := by
      obtain ⟨x, hx⟩ := List.exists_mem_of_ne_nil ratings hne
      exact (hall x hx) ▸ hx
    have hrmem : (r, ratings.count r) ∈ most_common ratings := mem_most_common.2 ⟨hrne, rfl⟩
    rcases hmc : most_common ratings with _ | ⟨p, tl0⟩
    · exact absurd (hmc ▸ hrmem) (List.not_mem_nil _)
    rcases tl0 with _ | ⟨q, tl⟩
    · rw [hmc] at hrmem
      rw [finalRating_eq_of_singleton hmc, ← List.mem_singleton.1 hrmem]
    · have hpmem : p ∈ most_common ratings := by
        rw [hmc]; exact List.mem_cons_self _ _
      have hqmem : q ∈ most_common ratings := by
        rw [hmc]; exact List.mem_cons_of_mem _ (List.mem_cons_self _ _)
      obtain ⟨hp1, _⟩ := mem_most_common.1 hpmem
      obtain ⟨hq1, _⟩ := mem_most_common.1 hqmem
      have hnd := most_common_fst_nodup ratings
      rw [hmc] at hnd
      simp only [List.map_cons, List.nodup_cons, List.mem_cons, List.mem_map] at hnd
      have hpq : p.1 ≠ q.1 := fun h => hnd.1 (Or.inl h)
      exact absurd ((hall p.1 hp1).trans (hall q.1 hq1).symm) hpq
  · -- tie between the two top counts
    rintro ⟨a, b, ha, hb, hab, hcnt, hmax⟩
    have hamem : (a, ratings.count a) ∈ most_common ratings := mem_most_common.2 ⟨ha, rfl⟩
    have hbmem : (b, ratings.count b) ∈ most_common ratings := mem_most_common.2 ⟨hb, rfl⟩
    rcases hmc : most_common ratings with _ | ⟨p, tl0⟩
    · exact absurd (hmc ▸ hamem) (List.not_mem_nil _)
    rcases tl0 with _ | ⟨q, tl⟩
    · rw [hmc] at hamem hbmem
      have h1 := List.mem_singleton.1 hamem
      have h2 := List.mem_singleton.1 hbmem
      exact absurd ((congrArg Prod.fst h1).trans (congrArg Prod.fst h2).symm) hab
    · rw [hmc] at hamem hbmem
      have hs := most_common_sorted ratings
      rw [hmc] at hs
      obtain ⟨hs1, hs2⟩ := List.sorted_cons.1 hs
      obtain ⟨hs21, _⟩ := List.sorted_cons.1 hs2
      have hpmem : p ∈ most_common ratings := by
        rw [hmc]; exact List.mem_cons_self _ _
      obtain ⟨hp1, hp2⟩ := mem_most_common.1 hpmem
      have hple : p.2 ≤ ratings.count a := hp2 ▸ hmax p.1 hp1
      have hpge : ratings.count a ≤ p.2 := by
        rcases List.mem_cons.1 hamem with heq | hmem2
        · rw [← heq]
        · exact hs1 _ hmem2
      have hqle : q.2 ≤ p.2 := hs1 q (List.mem_cons_self _ _)
      have hqge : ratings.count a ≤ q.2 := by
        rcases List.mem_cons.1 hamem with heqa | hmema
        · rcases List.mem_cons.1 hbmem with heqb | hmemb
          · exact absurd (congrArg Prod.fst (heqa.trans heqb.symm)) hab
          · rcases List.mem_cons.1 hmemb with heqb2 | hmemb2
            · rw [hcnt, ← heqb2]
            · rw [hcnt]; exact hs21 _ hmemb2
        · rcases List.mem_cons.1 hmema with heqa2 | hmema2
          · rw [← heqa2]
          · exact hs21 _ hmema2
      have hp2a : p.2 = ratings.count a := le_antisymm hple hpge
      have hq2 : q.2 = p.2 := le_antisymm hqle (by rw [hp2a]; exact hqge)
      rw [finalRating_eq_of_cons hmc, if_pos hq2.symm]
  · -- a strict majority value
    rintro r ⟨hr, hstrict⟩
    have hrmem : (r, ratings.count r) ∈ most_common ratings := mem_most_common.2 ⟨hr, rfl⟩
    rcases hmc : most_common ratings with _ | ⟨p, tl0⟩
    · exact absurd (hmc ▸ hrmem) (List.not_mem_nil _)
    rcases tl0 with _ | ⟨q, tl⟩
    · rw [hmc] at hrmem
      rw [finalRating_eq_of_singleton hmc, ← List.mem_singleton.1 hrmem]
    · rw [hmc] at hrmem
      have hs := most_common_sorted ratings
      rw [hmc] at hs
      obtain ⟨hs1, _⟩ := List.sorted_cons.1 hs
      have hpmem : p ∈ most_common ratings := by
        rw [hmc]; exact List.mem_cons_self _ _
      have hqmem : q ∈ most_common ratings := by
        rw [hmc]; exact List.mem_cons_of_mem _ (List.mem_cons_self _ _)
      obtain ⟨hp1, hp2⟩ := mem_most_common.1 hpmem
      obtain ⟨hq1, hq2⟩ := mem_most_common.1 hqmem
      have hnd := most_common_fst_nodup ratings
      rw [hmc] at hnd
      simp only [List.map_cons, List.nodup_cons, List.mem_cons, List.mem_map] at hnd
      have hpq : p.1 ≠ q.1 := fun h => hnd.1 (Or.inl h)
      have hpr : p.1 = r := by
        by_contra hne2
        have hlt : ratings.count p.1 < ratings.count r := hstrict p.1 hp1 hne2
        have hge : ratings.count r ≤ p.2 := by
          rcases List.mem_cons.1 hrmem with heq | hmem2
          · rw [← heq]
          · exact hs1 _ hmem2
        rw [hp2] at hge
        exact absurd hlt (Nat.not_lt.2 hge)
      have hqr : q.1 ≠ r := fun h => hpq (hpr.trans h.symm)
      have hlt : q.2 < p.2 := by
        rw [hq2, hp2, hpr]
        exact hstrict q.1 hq1 hqr
      rw [finalRating_eq_of_cons hmc, if_neg (by omega)]
      rw [hpr]

/-- Witness for C1 at a concrete non-empty input. -/
theorem C1_final_rating_witness :
    (["BUY", "BUY", "HOLD"] : List String) ≠ [] ∧
      finalRating ["BUY", "BUY", "HOLD"] = some "BUY" :=
  ⟨by decide, (C1_final_rating ["BUY", "BUY", "HOLD"] (by decide)).2.2.2.1⟩

/-! ### Properties of the stub generator -/

theorem round_mono_q {x y : ℚ} (h : x ≤ y) : round x ≤ round y := by
  rw [round_eq, round_eq]
  exact Int.floor_mono (by linarith)

theorem round2_mem {q : ℚ} (h1 : 10 ≤ q) (h2 : q ≤ 200) :
    10 ≤ round2 q ∧ round2 q ≤ 200 := by
  have l1 : round (((1000 : ℤ) : ℚ)) ≤ round (q * 100) := round_mono_q (by push_cast; linarith)
  have l2 : round (q * 100) ≤ round (((20000 : ℤ) : ℚ)) := round_mono_q (by push_cast; linarith)
  rw [round_intCast] at l1 l2
  constructor
  · rw [round2, le_div_iff₀ (by norm_num : (0 : ℚ) < 100)]
    calc (10 : ℚ) * 100 = ((1000 : ℤ) : ℚ) := by norm_num
    _ ≤ ((round (q * 100) : ℤ) : ℚ) := by exact_mod_cast l1
  · rw [round2, div_le_iff₀ (by norm_num : (0 : ℚ) < 100)]
    calc ((round (q * 100) : ℤ) : ℚ) ≤ ((20000 : ℤ) : ℚ) := by exact_mod_cast l2
    _ = 200 * 100 := by norm_num

/-- C4: with an empty catalog, run_analysis fails with the configuration
error (the `RuntimeError` raised before any store access) and performs no run
store writes. -/
theorem C4_empty_catalog (client : AIClient) (backend : Nat → Except String String)
    (rng : Nat → RandomSource) (ticker : String) :
    run_analysis [] client backend rng ticker =
      ([], .error "No prompt definitions found in the prompts directory.") ∧
    ∀ w, w ∈ (run_analysis [] client backend rng ticker).1 → False := by
  refine ⟨rfl, ?_⟩
  intro w hw
  exact List.not_mem_nil w hw

/-- C5: model invocation never propagates a backend error: without a
configured backend the call is skipped and the raw text is `None`; with a
backend whose call fails the error is caught and the raw text is `None`; in
both cases `generate` continues on the stub path.  An absent API key means no
backend is configured. -/
theorem C5_backend_errors_never_propagate (client : AIClient) (resp : Except String String)
    (rng : RandomSource)
    (h : client.llm_available = false ∨ ∃ e, resp = .error e) :
    rawTextOf client resp = none ∧
    generate client resp rng = (stubObj rng, some (jsonDumps (stubObj rng))) ∧
    (client.api_key = none → client.llm_available = false) := by
  have hraw : rawTextOf client resp = none := by
    rcases h with h1 | ⟨e, rfl⟩
    · simp [rawTextOf, h1]
    · simp only [rawTextOf]
      split
      · rfl
      · rfl
  refine ⟨hraw, ?_, ?_⟩
  · simp only [generate, hraw]
    rfl
  · intro hk
    simp [AIClient.llm_available, hk, optStrTruthy]

/-- Witness for C5: a client with no API key and a failing backend call. -/
theorem C5_witness :
    (AIClient.llm_available ⟨none, true⟩ = false ∨
      ∃ e, (Except.error "boom" : Except String String) = .error e) ∧
    rawTextOf ⟨none, true⟩ (.error "boom") = none :=
  ⟨Or.inl rfl,
    (C5_backend_errors_never_propagate ⟨none, true⟩ (.error "boom") constRandom (Or.inl rfl)).1⟩

/-- C3: whenever the parse step yields no usable data (falsy parsed value:
no raw text, unparsable raw text, or a falsy parsed value), the result is the
stub: its score is an integer in `[1, 100]`; its rating follows the score
thresholds (`≥ 70` BUY, `[40, 70)` HOLD, `< 40` SELL); its target price is in
`[10, 200]` and is a multiple of `1/100` (two decimal places); its rationale
is the fixed placeholder; and the recorded raw text is the serialized (JSON)
form of this stub. -/
theorem C3_stub_outcome (rng : RandomSource) (raw : Option String)
    (h : pyTruthy (parseRaw raw) = false) :
    resolveParsed raw rng = (stubObj rng, some (jsonDumps (stubObj rng))) ∧
    1 ≤ stubScore rng ∧ stubScore rng ≤ 100 ∧
    (70 ≤ stubScore rng → stubRating rng = "BUY") ∧
    (40 ≤ stubScore rng → stubScore rng < 70 → stubRating rng = "HOLD") ∧
    (stubScore rng < 40 → stubRating rng = "SELL") ∧
    10 ≤ stubTarget rng ∧ stubTarget rng ≤ 200 ∧
    (∃ k : ℤ, stubTarget rng = (k : ℚ) / 100) ∧
    stubObj rng = .jobj [("score", .jint (stubScore rng)), ("rating", .jstr (stubRating rng)),
      ("target_buy_price", .jnum (stubTarget rng)),
      ("rationale", .jstr placeholderRationale)] := by
  obtain ⟨hs1, hs2⟩ := rng.randint_mem 1 100 (by norm_num)
  obtain ⟨hu1, hu2⟩ := rng.uniform_mem 10 200 (by norm_num)
  obtain ⟨ht1, ht2⟩ := round2_mem hu1 hu2
  refine ⟨?_, hs1, hs2, ?_, ?_, ?_, ht1, ht2, ⟨round (rng.uniform 10 200 * 100), rfl⟩, rfl⟩
  · simp [resolveParsed, h]
  · intro h70
    rw [stubRating, if_pos h70]
  · intro h40 h70
    rw [stubRating, if_neg (by omega), if_pos h40]
  · intro h40
    rw [stubRating, if_neg (by omega), if_neg (by omega)]

/-- Witness for C3: no raw text at all, with a concrete random source. -/
theorem C3_witness :
    pyTruthy (parseRaw none) = false ∧
    resolveParsed none constRandom = (stubObj constRandom, some (jsonDumps (stubObj constRandom))) :=
  ⟨rfl, (C3_stub_outcome constRandom none rfl).1⟩

/-- C7: for non-empty inputs the aggregated `average_score` and
`final_target_price` are the exact arithmetic means of the scores and target
prices; `[10, 20, 30]` averages to exactly `20`; the empty sequence fails with
the division-by-zero condition. -/
theorem C7_averages (scores : List Int) (targets : List ℚ)
    (h1 : scores ≠ []) (h2 : targets ≠ []) :
    average_score_of scores =
      .ok ((scores.map (fun n => (n : ℚ))).sum / (scores.length : ℚ)) ∧
    final_target_price_of targets = .ok (targets.sum / (targets.length : ℚ)) ∧
    average_score_of [10, 20, 30] = .ok 20 ∧
    average_score_of [] = .error "ZeroDivisionError: division by zero" ∧
    final_target_price_of [] = .error "ZeroDivisionError: division by zero" := by
  have hl1 : (scores.length : ℚ) ≠ 0 :=
    Nat.cast_ne_zero.2 (fun h => h1 (List.length_eq_zero.1 h))
  have hl2 : (targets.length : ℚ) ≠ 0 :=
    Nat.cast_ne_zero.2 (fun h => h2 (List.length_eq_zero.1 h))
  refine ⟨?_, ?_, by with_unfolding_all rfl, by with_unfolding_all rfl,
    by with_unfolding_all rfl⟩
  · simp only [average_score_of, pyDiv]
    rw [if_neg hl1]
  · simp only [final_target_price_of, pyDiv]
    rw [if_neg hl2]

/-- Witness for C7 at concrete non-empty inputs. -/
theorem C7_witness :
    ([10, 20, 30] : List Int) ≠ [] ∧ ([2, 4] : List ℚ) ≠ [] ∧
    average_score_of [10, 20, 30] = .ok 20 ∧
    final_target_price_of [2, 4] = .ok ((([2, 4] : List ℚ).sum) / ((([2, 4] : List ℚ).length : ℚ))) :=
  ⟨by simp, by simp, (C7_averages [10, 20, 30] [2, 4] (by simp) (by simp)).2.2.1,
    (C7_averages [10, 20, 30] [2, 4] (by simp) (by simp)).2.1⟩

theorem load_prompts_aux_filterMap (d : PromptDir)
    (files : List (String × Except String JVal)) :
    load_prompts_aux d files = files.filterMap (fun f => (loadOne d f.2).toOption) := by
  induction files with
  | nil => rfl
  | cons f rest ih =>
    rw [load_prompts_aux, List.filterMap_cons]
    cases h : loadOne d f.2 with
    | error e => simp [h, Except.toOption, ih]
    | ok p => simp [h, Except.toOption, ih]

/-- C8: the loader never raises for a single bad file: its result is exactly
the per-file successes in order (each failure only omits its own entry);
a YAML error, a non-mapping file, a missing required `template` key, and a
missing referenced template file each fail only their own entry; and in a
concrete catalog with a bad middle file the two valid entries still load. -/
theorem C8_loader_error_isolation (d : PromptDir) :
    (load_prompts d = d.files.filterMap (fun f => (loadOne d f.2).toOption)) ∧
    (∀ e, ∃ e2, loadOne d (.error e) = .error e2) ∧
    (∃ e, loadOne d (.ok (.jstr "just text")) = .error e) ∧
    (∃ e, loadOne d (.ok (.jobj [("prompt_id", .jstr "p"), ("name", .jstr "n"),
      ("version", .jint 1)])) = .error e) ∧
    (∃ e, loadOne ⟨[], []⟩ (.ok (.jobj [("prompt_id", .jstr "p"), ("name", .jstr "n"),
      ("version", .jint 1), ("template_file", .jstr "missing.txt")])) = .error e) ∧
    load_prompts ⟨[("a.yml", .ok (.jobj [("prompt_id", .jstr "a"), ("name", .jstr "A"),
        ("version", .jint 1), ("template", .jstr "ta")])),
      ("b.yml", .error "yaml scan error"),
      ("c.yml", .ok (.jobj [("prompt_id", .jstr "c"), ("name", .jstr "C"),
        ("version", .jint 2), ("template", .jstr "tc")]))], []⟩ =
      [⟨"a", "A", 1, "ta", .jnull⟩, ⟨"c", "C", 2, "tc", .jnull⟩] := by
  refine ⟨load_prompts_aux_filterMap d d.files, ?_, ⟨_, rfl⟩, ⟨_, rfl⟩, ⟨_, rfl⟩, rfl⟩
  intro e
  exact ⟨e, rfl⟩

/-- C10: when a catalog file has both an inline `template` and a truthy
`template_file` whose referenced file exists, the loaded prompt's template is
the referenced file's contents — the external file silently replaces the
inline text. -/
theorem C10_template_file_precedence (d : PromptDir) (pid nm f c t : String) (ver : Int)
    (hf : f ≠ "") (hc : d.fileContents.lookup f = some c) :
    loadOne d (.ok (.jobj [("prompt_id", .jstr pid), ("name", .jstr nm),
      ("version", .jint ver), ("template", .jstr t), ("template_file", .jstr f)])) =
      .ok ⟨pid, nm, ver, c, .jnull⟩ := by
  have hb : pyTruthy (JVal.jstr f) = true := by simp [pyTruthy, hf]
  have hlk : (([("prompt_id", JVal.jstr pid), ("name", JVal.jstr nm),
      ("version", JVal.jint ver), ("template", JVal.jstr t),
      ("template_file", JVal.jstr f)] : List (String × JVal)).lookup "template_file").getD
      JVal.jnull = JVal.jstr f := rfl
  simp only [loadOne]
  rw [hlk, hb]
  simp only [if_true]
  rw [hc]
  rfl

/-- Witness for C10: a concrete directory holding the referenced file. -/
theorem C10_witness :
    ("tmpl.txt" : String) ≠ "" ∧
    (PromptDir.fileContents ⟨[], [("tmpl.txt", "FILE BODY")]⟩).lookup "tmpl.txt" =
      some "FILE BODY" ∧
    loadOne ⟨[], [("tmpl.txt", "FILE BODY")]⟩ (.ok (.jobj [("prompt_id", .jstr "p"),
      ("name", .jstr "n"), ("version", .jint 1), ("template", .jstr "inline"),
      ("template_file", .jstr "tmpl.txt")])) = .ok ⟨"p", "n", 1, "FILE BODY", .jnull⟩ :=
  ⟨by decide, rfl,
    C10_template_file_precedence ⟨[], [("tmpl.txt", "FILE BODY")]⟩ "p" "n" "tmpl.txt"
      "FILE BODY" "inline" 1 (by decide) rfl⟩

/-- The raw text of the C2 counterexample: well-formed JSON whose score field
is a non-numeric string. -/
def badScoreRaw : String := "\x7b\"score\": \"abc\"\x7d"

/-- C2 counterexample: resolving the parseable raw text whose score is not
numeric raises (`int("abc")`), so an error does propagate from raw text to
outcome. -/
theorem C2_counterexample :
    resolveOutcome (some badScoreRaw) constRandom =
      .error "ValueError: invalid literal for int with base 10: abc" := rfl

/-- C2 (amended): the parse step itself never propagates: raw text that fails
to parse as JSON, like absent raw text, degrades to the stub outcome and to
its serialized raw text with no error. -/
theorem C2_amended_parse_failure_degrades (t : String) (rng : RandomSource)
    (h : jsonLoads t = none) :
    resolveOutcome (some t) rng = .ok (stubCoerced rng, some (jsonDumps (stubObj rng))) ∧
    resolveOutcome none rng = .ok (stubCoerced rng, some (jsonDumps (stubObj rng))) := by
  have hpr : parseRaw (some t) = .jobj [] := by
    by_cases ht : t = ""
    · simp [parseRaw, ht]
    · simp [parseRaw, ht, h]
  constructor
  · simp only [resolveOutcome, resolveParsed, hpr]
    rfl
  · rfl

/-- Witness for C2's amended theorem at a concrete unparseable raw text. -/
theorem C2_amended_witness :
    jsonLoads "not json" = none ∧
    resolveOutcome (some "not json") constRandom =
      .ok (stubCoerced constRandom, some (jsonDumps (stubObj constRandom))) :=
  ⟨rfl, (C2_amended_parse_failure_degrades "not json" constRandom rfl).1⟩

/-- The parse-path example raw text from the spec. -/
def exampleRaw : String :=
  "\x7b\"score\": 85, \"rating\": \"buy\", \"target_buy_price\": 42.5, \"rationale\": \"x\"\x7d"

/-- C6 counterexample: the rationale field is not coerced to a string — a
numeric rationale is kept verbatim in the outcome, so the outcome's rationale
is not a string at this input. -/
theorem C6_counterexample :
    coerceFields (.jobj [("rationale", .jint 42)]) = .ok ⟨0, "", 0, .jint 42⟩ ∧
    ∀ s : String, (JVal.jint 42) ≠ JVal.jstr s := by
  refine ⟨rfl, ?_⟩
  intro s h
  exact JVal.noConfusion h

/-- C6 (amended): score is coerced to integer (default 0), rating to
uppercase string (default empty), target price to rational (default 0);
rationale is taken verbatim (default the empty string, uncoerced); and the
spec's example raw text yields score 85 and rating `"BUY"`. -/
theorem C6_amended_coercions (s : Int) (r : String) (t : ℚ) (rv : JVal) :
    coerceFields (.jobj [("score", .jint s), ("rating", .jstr r),
      ("target_buy_price", .jnum t), ("rationale", rv)]) = .ok ⟨s, pyUpper r, t, rv⟩ ∧
    coerceFields (.jobj []) = .ok ⟨0, "", 0, .jstr ""⟩ ∧
    resolveOutcome (some exampleRaw) constRandom =
      .ok (⟨85, "BUY", 42.5, .jstr "x"⟩, some exampleRaw) :=
  ⟨rfl, rfl, by with_unfolding_all rfl⟩

theorem runLoop_shape (client : AIClient) (backend : Nat → Except String String)
    (rng : Nat → RandomSource) (ps : List Prompt) :
    ∀ (i : Nat) (ws : List DBWrite) (es : List OutcomeEntry),
      runLoop client backend rng i ps = (ws, .ok es) →
      es.map (fun e => e.prompt_id) = ps.map (fun p => p.prompt_id) ∧
      es.length = ps.length ∧
      ws.map writePromptId = ps.map (fun p => some p.prompt_id) := by
  induction ps with
  | nil =>
    intro i ws es h
    simp only [runLoop] at h
    injection h with h1 h2
    injection h2 with h3
    subst h1
    subst h3
    exact ⟨rfl, rfl, rfl⟩
  | cons p rest ih =>
    intro i ws es h
    simp only [runLoop] at h
    cases hcf : coerceFields (generate client (backend i) (rng i)).1 with
    | error e =>
      rw [hcf] at h
      injection h with h1 h2
      exact Except.noConfusion h2
    | ok c =>
      rw [hcf] at h
      cases hnl : runLoop client backend rng (i + 1) rest with
      | mk ws2 res2 =>
        rw [hnl] at h
        cases res2 with
        | error e2 =>
          simp only [Except.map] at h
          injection h with h1 h2
          exact Except.noConfusion h2
        | ok es2 =>
          simp only [Except.map] at h
          injection h with h1 h2
          injection h2 with h3
          subst h1
          subst h3
          obtain ⟨ih1, ih2, ih3⟩ := ih (i + 1) ws2 es2 hnl
          refine ⟨?_, ?_, ?_⟩
          · simp only [List.map_cons, ih1]
          · simp only [List.length_cons, ih2]
          · simp only [List.map_cons, ih3, writePromptId]

/-- C9: whenever run_analysis returns, it returns exactly one outcome per
loaded prompt, in catalog order, and the write trace is the start-run record,
then exactly one per-prompt save in catalog order (each prompt's persistence
completes before the next prompt's), then the finish-run record with the
returned summary. -/
theorem C9_one_outcome_per_prompt (prompts : List Prompt) (client : AIClient)
    (backend : Nat → Except String String) (rng : Nat → RandomSource) (ticker : String)
    (ws : List DBWrite) (es : List OutcomeEntry) (summary : RunSummary)
    (h : run_analysis prompts client backend rng ticker = (ws, .ok (es, summary))) :
    es.map (fun e => e.prompt_id) = prompts.map (fun p => p.prompt_id) ∧
    es.length = prompts.length ∧
    ∃ mid, ws = DBWrite.start_run ticker (jsonDumps (load_context ticker)) :: mid ++
        [DBWrite.finish_run summary.average_score summary.final_rating
          summary.final_target_price] ∧
      mid.map writePromptId = prompts.map (fun p => some p.prompt_id) := by
  simp only [run_analysis] at h
  cases hemp : prompts.isEmpty with
  | true =>
    rw [hemp] at h
    simp only [if_true] at h
    injection h with h1 h2
    exact Except.noConfusion h2
  | false =>
    rw [hemp] at h
    simp only [Bool.false_eq_true, if_false] at h
    cases hloop : runLoop client backend rng 0 prompts with
    | mk ws0 res0 =>
      rw [hloop] at h
      cases res0 with
      | error e =>
        injection h with h1 h2
        exact Except.noConfusion h2
      | ok entries =>
        simp only [] at h
        cases havg : average_score_of (entries.map fun e => e.score) with
        | error e =>
          rw [havg] at h
          injection h with h1 h2
          exact Except.noConfusion h2
        | ok avg =>
          rw [havg] at h
          cases hfr : finalRating (entries.map fun e => e.rating) with
          | none =>
            rw [hfr] at h
            injection h with h1 h2
            exact Except.noConfusion h2
          | some fr =>
            rw [hfr] at h
            cases hftp : final_target_price_of (entries.map fun e => e.target_buy_price) with
            | error e =>
              rw [hftp] at h
              injection h with h1 h2
              exact Except.noConfusion h2
            | ok ftp =>
              rw [hftp] at h
              injection h with h1 h2
              injection h2 with h3
              injection h3 with h4 h5
              subst h4
              subst h5
              obtain ⟨s1, s2, s3⟩ := runLoop_shape client backend rng prompts 0 ws0 entries hloop
              refine ⟨s1, s2, ws0, ?_, s3⟩
              rw [← h1]

/-- A concrete prompt for the C9 witness run. -/
def wPrompt : Prompt := ⟨"p1", "Prompt One", 1, "tpl", .jnull⟩

/-- A client with no API key (stub path) for the C9 witness run. -/
def wClient : AIClient := ⟨none, true⟩

/-- A backend whose every call fails, for the C9 witness run. -/
def wBackend : Nat → Except String String := fun _ => .error "backend down"

/-- A fixed random source per call, for the C9 witness run. -/
def wRng : Nat → RandomSource := fun _ => constRandom

/-- The C9 witness run itself. -/
def wRun : List DBWrite × Except String (List OutcomeEntry × RunSummary) :=
  run_analysis [wPrompt] wClient wBackend wRng "AAPL"

/-- The outcome entries of the C9 witness run. -/
def wEntries : List OutcomeEntry :=
  match wRun.2 with
  | .ok (es, _) => es
  | .error _ => []

/-- The summary of the C9 witness run. -/
def wSummary : RunSummary :=
  match wRun.2 with
  | .ok (_, s) => s
  | .error _ => ⟨0, "", 0⟩

/-- Witness for C9: a concrete successful one-prompt run on the stub path. -/
theorem C9_witness :
    wEntries.map (fun e => e.prompt_id) = [wPrompt].map (fun p => p.prompt_id) ∧
    wEntries.length = [wPrompt].length :=
  ⟨(C9_one_outcome_per_prompt [wPrompt] wClient wBackend wRng "AAPL" wRun.1 wEntries wSummary
      (by with_unfolding_all rfl)).1,
    (C9_one_outcome_per_prompt [wPrompt] wClient wBackend wRng "AAPL" wRun.1 wEntries wSummary
      (by with_unfolding_all rfl)).2.1⟩

end StockAI
